import Mathlib

/-
Verification development for the github-folder-downloader repository
(`src/main.py`).  The core of the program is embedded shallowly:

* `utf8Decode`            models Python `bytes.decode('utf-8')`;
* `pjoin` / `dirname`     model `os.path.join` / `os.path.dirname` (posix);
* `download_file`         models `main.py` lines 71-151 (two-tier fetch);
* `process_directory`     models `main.py` lines 154-186 (recursive walk).

Remote behaviour (HTTP responses of the listing endpoint, the structured
content endpoint and the raw endpoint) is supplied by an environment value,
and the observable actions of the program (requests, directory creation,
file writes, pacing sleeps) are recorded as an event trace.
-/

namespace Downloader

/-- Model of a Python byte string: the list of its byte values. -/
abbrev Bytes := List Nat

/-- Strict UTF-8 decoder, modelling Python `bytes.decode('utf-8')` as used at
`main.py` lines 96, 108 and 130.  Returns the decoded code points, or `none`
exactly when CPython raises `UnicodeDecodeError`: invalid lead byte
(`0x80-0xC1`, `0xF5-`), invalid or missing continuation byte, overlong
encoding, surrogate code point (lead `0xED` with second byte `≥ 0xA0`),
code point above `U+10FFFF` (lead `0xF4` with second byte `≥ 0x90`), or a
truncated multi-byte sequence. -/
def utf8Decode : Bytes → Option (List Nat)
  | [] => some []
  | b :: rest =>
    if b < 0x80 then
      (utf8Decode rest).map (fun cs => b :: cs)
    else if b < 0xC2 then none
    else if b < 0xE0 then
      match rest with
      | b1 :: rest2 =>
        if 0x80 ≤ b1 ∧ b1 < 0xC0 then
          (utf8Decode rest2).map (fun cs => ((b - 0xC0) * 0x40 + (b1 - 0x80)) :: cs)
        else none
      | [] => none
    else if b < 0xF0 then
      match rest with
      | b1 :: b2 :: rest2 =>
        if (if b = 0xE0 then 0xA0 else 0x80) ≤ b1 ∧ b1 < (if b = 0xED then 0xA0 else 0xC0)
            ∧ 0x80 ≤ b2 ∧ b2 < 0xC0 then
          (utf8Decode rest2).map
            (fun cs => ((b - 0xE0) * 0x1000 + (b1 - 0x80) * 0x40 + (b2 - 0x80)) :: cs)
        else none
      | _ => none
    else if b < 0xF5 then
      match rest with
      | b1 :: b2 :: b3 :: rest2 =>
        if (if b = 0xF0 then 0x90 else 0x80) ≤ b1 ∧ b1 < (if b = 0xF4 then 0x90 else 0xC0)
            ∧ 0x80 ≤ b2 ∧ b2 < 0xC0 ∧ 0x80 ≤ b3 ∧ b3 < 0xC0 then
          (utf8Decode rest2).map
            (fun cs =>
              ((b - 0xF0) * 0x40000 + (b1 - 0x80) * 0x1000 + (b2 - 0x80) * 0x40 + (b3 - 0x80)) :: cs)
        else none
      | _ => none
    else none

/-- Model of `name.startswith('.')` (`main.py` line 165): true when the first
character of the string is a dot. -/
def startswith_dot (s : String) : Bool :=
  match s.data with
  | [] => false
  | c :: _ => c = '.'

/-- Model of posix `os.path.join a b` (`main.py` lines 101, 125, 171): if `b`
is absolute it wins; otherwise it is appended, inserting a slash unless `a`
is empty or already ends in one. -/
def pjoin (a b : String) : String :=
  if b.data.head? = some '/' then b
  else if a = "" ∨ a.data.getLast? = some '/' then a ++ b
  else a ++ "/" ++ b

/-- Model of posix `os.path.dirname`: the part of the path before its last
slash, with trailing slashes stripped unless the head consists only of
slashes; the empty string when the path has no slash. -/
def dirname (p : String) : String :=
  let cs := p.data
  match cs.reverse.findIdx? (fun c => c = '/') with
  | none => ""
  | some k =>
    let head := cs.take (cs.length - k)
    if head.all (fun c => c = '/') then String.mk head
    else String.mk ((head.reverse.dropWhile (fun c => c = '/')).reverse)

/-- Storage classification of retrieved bytes (spec `Classification`):
`text` when the bytes decode as UTF-8, `binary` otherwise. -/
inductive Classification where
  | text
  | binary
deriving DecidableEq

/-- The `is_binary` computation of the primary channel (`main.py` lines
94-98): try `file_content.decode('utf-8')`, setting the flag on
`UnicodeDecodeError`. -/
def is_binary_primary (b : Bytes) : Bool :=
  match utf8Decode b with
  | some _ => false
  | none => true

/-- The `is_binary` computation of the fallback channel (`main.py` lines
128-132): try `raw_response.content.decode('utf-8')`, setting the flag on
`UnicodeDecodeError`. -/
def is_binary_fallback (b : Bytes) : Bool :=
  match utf8Decode b with
  | some _ => false
  | none => true

/-- The content classifier of the spec (section 4.3), as realised by the two
inline `is_binary` computations: decode success means `text`, decode failure
means `binary`. -/
def classify (b : Bytes) : Classification :=
  if (utf8Decode b).isSome then Classification.text else Classification.binary

/-- Content of a persisted file: a text-mode write of decoded code points
(`mode = 'w'`, `encoding='utf-8'`) or a binary-mode write of raw bytes
(`mode = 'wb'`). -/
inductive FileData where
  | textData (cps : List Nat)
  | binData (bs : Bytes)
deriving DecidableEq

/-- Parsed JSON payload of the structured content endpoint, as far as
`main.py` lines 85-91 inspects it.  `isDict` models `isinstance(content_data,
dict)`; `typeField` the `'type'` key when present; `hasContent` the presence
of `'content'`; `encodingField` the `'encoding'` key; `b64decoded` the result
of `base64.b64decode(content_data['content'])`, with `none` standing for a
decode exception (caught at line 116). -/
structure ContentData where
  isDict : Bool
  typeField : Option String
  hasContent : Bool
  encodingField : Option String
  b64decoded : Option Bytes
deriving DecidableEq

/-- Result of `api_response.json()` (`main.py` line 85): a parsed payload, or
an exception (caught at line 116). -/
inductive JsonResult where
  | err
  | ok (d : ContentData)
deriving DecidableEq

/-- Model of a `requests` HTTP response.  `textBody` models the library's
`.text` property (used at `main.py` line 140): the body decoded with the
charset declared by the server in the response headers (or a guessed one),
which the environment supplies freely — it need not agree with the UTF-8
decoding of `content`. -/
structure Response where
  status : Nat
  jsonBody : JsonResult
  content : Bytes
  textBody : List Nat
deriving DecidableEq

/-- Outcome of one `requests.get` call: a response, or a transport-level
exception (timeout, connection error). -/
inductive HttpResult where
  | exn
  | ok (r : Response)
deriving DecidableEq

/-- Remote behaviour seen by one `download_file` call: the response of the
structured API endpoint (line 81) and of the raw endpoint (line 121). -/
structure FetchEnv where
  apiResult : HttpResult
  rawResult : HttpResult
deriving DecidableEq

/-- The retrieval channel that issued a request. -/
inductive Chan where
  | primary
  | fallback
deriving DecidableEq

/-- Result of `download_file`: the returned boolean, the persisted file
(destination path and written data) when one was written, and the channels
whose request was actually issued, in order. -/
structure DownloadResult where
  success : Bool
  written : Option (String × FileData)
  attempts : List Chan
deriving DecidableEq

/-- Data written by the primary channel (`main.py` lines 94-108): raw bytes
in binary mode when UTF-8 decoding fails, otherwise the decoded string in
text mode (`file_content.decode('utf-8')`, line 108). -/
def primaryData (fc : Bytes) : FileData :=
  if is_binary_primary fc then FileData.binData fc
  else FileData.textData ((utf8Decode fc).getD [])

/-- Data written by the fallback channel (`main.py` lines 127-140): raw bytes
in binary mode when UTF-8 decoding of `raw_response.content` fails, otherwise
`raw_response.text` — the library's charset-decoded rendering, not the UTF-8
decoding — in text mode (line 140). -/
def fallbackData (rr : Response) : FileData :=
  if is_binary_fallback rr.content then FileData.binData rr.content
  else FileData.textData rr.textBody

/-- The primary-channel branch of `download_file` (`main.py` lines 83-115):
given the API response, the data it persists, or `none` when control falls
through to the fallback channel (non-200 status, JSON error, non-dict
payload, missing or non-`file` type, missing content, non-base64 encoding,
or a base64 decode error). -/
def primaryWrite (r : Response) : Option FileData :=
  if r.status = 200 then
    match r.jsonBody with
    | JsonResult.err => none
    | JsonResult.ok cd =>
      if cd.isDict ∧ cd.typeField = some "file" then
        if cd.hasContent ∧ cd.encodingField = some "base64" then
          match cd.b64decoded with
          | some fc => some (primaryData fc)
          | none => none
        else none
      else none
  else none

/-- The body of the `try` block of `download_file` (`main.py` lines 79-147).
An `Except.error` models an uncaught-inside-the-block transport exception,
carrying the channels whose request had been issued by that point; it is
handled by the outer `except` (lines 149-151). -/
def download_attempt (fenv : FetchEnv) (outDir fileName : String) :
    Except (List Chan) DownloadResult :=
  match fenv.apiResult with
  | HttpResult.exn => Except.error [Chan.primary]
  | HttpResult.ok apiResp =>
    match primaryWrite apiResp with
    | some fd =>
      Except.ok ⟨true, some (pjoin outDir fileName, fd), [Chan.primary]⟩
    | none =>
      match fenv.rawResult with
      | HttpResult.exn => Except.error [Chan.primary, Chan.fallback]
      | HttpResult.ok rawResp =>
        if rawResp.status = 200 then
          Except.ok ⟨true, some (pjoin outDir fileName, fallbackData rawResp),
            [Chan.primary, Chan.fallback]⟩
        else
          Except.ok ⟨false, none, [Chan.primary, Chan.fallback]⟩

/-- Model of `download_file` (`main.py` lines 71-151): the `try` body, with
every transport exception absorbed by the outer `except` into a plain
`False` return (lines 149-151). -/
def download_file (fenv : FetchEnv) (outDir fileName : String) : DownloadResult :=
  match download_attempt fenv outDir fileName with
  | Except.ok r => r
  | Except.error att => ⟨false, none, att⟩

/-- Observable actions of the program, in execution order.  `listReq` is the
listing request of `list_directory_contents` (line 56); `listFail` its
failure path (lines 61-68); `attempt` a `requests.get` issued for a file on
the given channel (lines 81, 121); `mkdir` an `os.makedirs(_, exist_ok=True)`
call (line 172); `persist` a completed file write (lines 104-108, 136-140);
`pace` the `time.sleep(random.uniform(0.1, 0.5))` call (line 179). -/
inductive Event where
  | listReq (path : String)
  | listFail (path : String)
  | attempt (c : Chan) (filePath : String)
  | mkdir (dir : String)
  | persist (outPath : String) (data : FileData)
  | pace
deriving DecidableEq

/-- Events generated by one `download_file` call on the file at remote path
`filePath`: the issued requests in order, followed by the file write when one
happened (the write always happens after the last issued request). -/
def downloadEvents (filePath : String) (r : DownloadResult) : List Event :=
  r.attempts.map (fun c => Event.attempt c filePath) ++
    (match r.written with
     | some (p, d) => [Event.persist p d]
     | none => [])

/-- One item of a directory listing as `process_directory` reads it:
`item['name']`, `item['type']` (an arbitrary string: `'file'`, `'dir'`, or
anything else such as `'symlink'` or `'submodule'`), and `item['path']`
(relative to the repository root). -/
structure Entry where
  name : String
  etype : String
  path : String
deriving DecidableEq

/-- Outcome of one `list_directory_contents` call (`main.py` lines 50-68):
the parsed entry list on HTTP 200, or failure (non-200 status or a transport
exception, both returning `([], False)`). -/
inductive ListResult where
  | fail
  | ok (entries : List Entry)

/-- Remote behaviour of the whole walk: the listing result for every
directory path and the two fetch responses for every file path. -/
structure Env where
  listing : String → ListResult
  fetch : String → FetchEnv

/-- The body of the `for item in contents` loop of `process_directory`
(`main.py` lines 163-184) for one entry: skip hidden names (line 165); for a
`'file'` entry create the output directory and download (lines 168-179); for
a `'dir'` entry recurse (lines 181-184, via the supplied `recur`); ignore any
other entry type.  Returns the contribution to `files_downloaded` and the
events performed. -/
def process_entry (fetchOf : String → FetchEnv) (outRoot path : String)
    (recur : String → Nat × List Event) (e : Entry) : Nat × List Event :=
  if startswith_dot e.name then (0, [])
  else if e.etype = "file" then
    let dir := pjoin outRoot path
    let r := download_file (fetchOf e.path) dir e.name
    (if r.success then 1 else 0,
      Event.mkdir dir :: (downloadEvents e.path r ++ if r.success then [Event.pace] else []))
  else if e.etype = "dir" then recur e.path
  else (0, [])

/-- The `for` loop of `process_directory` over the listed entries, summing
the per-entry counts and concatenating the per-entry events in listing
order. -/
def process_entries (step : Entry → Nat × List Event) : List Entry → Nat × List Event
  | [] => (0, [])
  | e :: rest =>
    let a := step e
    let b := process_entries step rest
    (a.1 + b.1, a.2 ++ b.2)

/-- Model of `process_directory` (`main.py` lines 154-186): list the
directory; on listing failure return 0 immediately; otherwise run the entry
loop.  The `fuel` argument bounds the recursion depth (the Python function
has no such bound; every property proved below holds for every fuel value),
and exhausted fuel contributes nothing. -/
def process_directory (env : Env) (outRoot : String) : Nat → String → Nat × List Event
  | 0, _ => (0, [])
  | fuel + 1, path =>
    match env.listing path with
    | ListResult.fail => (0, [Event.listReq path, Event.listFail path])
    | ListResult.ok entries =>
      let r := process_entries
        (process_entry env.fetch outRoot path (process_directory env outRoot fuel)) entries
      (r.1, Event.listReq path :: r.2)

/-- Local filesystem state: the written files (path to content) and the
directories known to exist. -/
structure FS where
  files : String → Option FileData
  dirs : String → Bool

/-- Effect of one event on the filesystem: `mkdir` marks the directory
present (`os.makedirs(_, exist_ok=True)` — idempotent, no error when it
already exists); `persist` overwrites the file at the destination path with
the written data (`open(path, mode)` truncates: no merge, no versioning);
every other event leaves the disk unchanged. -/
def applyEvent (fs : FS) : Event → FS
  | Event.mkdir d =>
    { fs with dirs := fun q => if q = d then true else fs.dirs q }
  | Event.persist p dta =>
    { fs with files := fun q => if q = p then some dta else fs.files q }
  | _ => fs

/-- Effect of a whole event trace on the filesystem, in order. -/
def applyEvents (fs : FS) (tr : List Event) : FS :=
  tr.foldl applyEvent fs

/-- Whether an event is a completed file write. -/
def isPersist : Event → Bool
  | Event.persist _ _ => true
  | _ => false

/-- Whether an event is a pacing sleep. -/
def isPace : Event → Bool
  | Event.pace => true
  | _ => false

/-- Number of completed file writes in a trace. -/
def countPersist (tr : List Event) : Nat :=
  (tr.filter isPersist).length

/-- Number of pacing sleeps in a trace. -/
def countPace (tr : List Event) : Nat :=
  (tr.filter isPace).length

/-- Checks that every pacing sleep in the trace immediately follows a
completed file write (and in particular that no two sleeps are adjacent and
no sleep follows a skip, a failed download or a listing).  The boolean
argument records whether the previous event was a file write. -/
def paceSafeFrom : Bool → List Event → Bool
  | _, [] => true
  | prev, Event.pace :: rest => prev && paceSafeFrom false rest
  | _, Event.persist _ _ :: rest => paceSafeFrom true rest
  | _, _ :: rest => paceSafeFrom false rest

/-- Whether the last event of the trace is a completed file write (the
boolean argument is the answer for the empty trace). -/
def endsPersist : Bool → List Event → Bool
  | b, [] => b
  | _, Event.persist _ _ :: rest => endsPersist true rest
  | _, _ :: rest => endsPersist false rest

/-- The data of the last write to path `q` in a trace, when there is one. -/
def lastWrite (q : String) : List Event → Option FileData
  | [] => none
  | e :: rest =>
    match lastWrite q rest with
    | some d => some d
    | none =>
      match e with
      | Event.persist p d => if p = q then some d else none
      | _ => none

/-- Whether a trace contains a directory creation for `q`. -/
def mkdirSeen (q : String) : List Event → Bool
  | [] => false
  | e :: rest =>
    (match e with
     | Event.mkdir d => d = q
     | _ => false) || mkdirSeen q rest

/-- Invariant tying a walk result to its trace: the returned count equals
the number of completed file writes, pacing sleeps match writes one for one,
every sleep immediately follows a write, and the trace does not end in a
write whose sleep is still pending. -/
def TraceOk (n : Nat) (tr : List Event) : Prop :=
  countPersist tr = n ∧ countPace tr = n
    ∧ paceSafeFrom false tr = true ∧ endsPersist false tr = false

/-- The delay drawn by the pacing policy (`main.py` line 179):
`random.uniform(0.1, 0.5)` evaluates `0.1 + (0.5 - 0.1) * random()`, where
`random()` yields a value `u` with `0 ≤ u ≤ 1`. -/
def pace_delay (u : ℚ) : ℚ :=
  1/10 + (1/2 - 1/10) * u

/-- Fetch environment in which the primary request raises a transport
exception while the raw endpoint would answer 200; used to exhibit that
`download_file` then returns `False` without issuing the fallback
request. -/
def rawOkResponse : Response :=
  { status := 200, jsonBody := JsonResult.err, content := [104], textBody := [104] }

/-- Fetch environment whose primary request raises. -/
def envPrimaryExn : FetchEnv :=
  { apiResult := HttpResult.exn, rawResult := HttpResult.ok rawOkResponse }

/-- Fetch environment whose primary request returns 404 and whose raw
endpoint answers 200 with body bytes `C3 A9` (valid UTF-8 for `é`, code
point `E9`) served under a declared charset (such as ISO-8859-1) that makes
the library render `.text` as the two code points `C3 A9` (`Ã©`). -/
def envFallbackCharset : FetchEnv :=
  { apiResult := HttpResult.ok
      { status := 404, jsonBody := JsonResult.err, content := [], textBody := [] }
    rawResult := HttpResult.ok
      { status := 200, jsonBody := JsonResult.err
        content := [0xC3, 0xA9], textBody := [0xC3, 0xA9] } }

/-- Payload of a structurally valid primary response whose base64 content
decodes to the bytes of `"hi"`. -/
def cdPrimaryText : ContentData :=
  { isDict := true, typeField := some "file", hasContent := true
    encodingField := some "base64", b64decoded := some [104, 105] }

/-- A 200 primary response carrying `cdPrimaryText`. -/
def respPrimaryText : Response :=
  { status := 200, jsonBody := JsonResult.ok cdPrimaryText, content := [], textBody := [] }

/-- Fetch environment whose primary request succeeds structurally with
base64 content decoding to the bytes of `"hi"`. -/
def fenvPrimaryText : FetchEnv :=
  { apiResult := HttpResult.ok respPrimaryText, rawResult := HttpResult.exn }

/-- Payload of a 200 primary response that carries a `file` type but no
`content` field and no base64 encoding. -/
def cdNoContent : ContentData :=
  { isDict := true, typeField := some "file", hasContent := false
    encodingField := none, b64decoded := none }

/-- A 200 primary response carrying `cdNoContent`. -/
def respNoContent : Response :=
  { status := 200, jsonBody := JsonResult.ok cdNoContent, content := [], textBody := [] }

/-- Fetch environment whose primary request returns 200 with a payload that
lacks a content field, while the raw endpoint answers 200. -/
def fenvNoContent : FetchEnv :=
  { apiResult := HttpResult.ok respNoContent, rawResult := HttpResult.ok rawOkResponse }

/-- Fetch environment whose primary request returns 404 and whose raw
endpoint answers 200 with the single (non-UTF-8) byte `FF`. -/
def fenvRawBinary : FetchEnv :=
  { apiResult := HttpResult.ok
      { status := 404, jsonBody := JsonResult.err, content := [], textBody := [] }
    rawResult := HttpResult.ok
      { status := 200, jsonBody := JsonResult.err, content := [0xFF], textBody := [] } }

/-- A plain file entry of the demonstration tree. -/
def aEntry : Entry :=
  { name := "a.txt", etype := "file", path := "src/a.txt" }

/-- A hidden file entry of the demonstration tree. -/
def hiddenEntry : Entry :=
  { name := ".hidden", etype := "file", path := "src/.hidden" }

/-- An entry whose type is neither `file` nor `dir`. -/
def linkEntry : Entry :=
  { name := "link", etype := "symlink", path := "src/link" }

/-- A subdirectory entry of the demonstration tree. -/
def subEntry : Entry :=
  { name := "sub", etype := "dir", path := "src/sub" }

/-- A directory entry whose listing fails in the demonstration
environment. -/
def badDirEntry : Entry :=
  { name := "bad", etype := "dir", path := "bad" }

/-- Listed entries of the demonstration environment for path `src`. -/
def demoRootEntries : List Entry :=
  [aEntry, hiddenEntry, linkEntry, subEntry]

/-- Concrete walking environment: `src` lists a text file, a hidden file, a
symlink and a subdirectory; the subdirectory lists one binary file; every
other path fails to list.  `a.txt` downloads through the primary channel,
`b.bin` through the fallback channel, everything else raises. -/
def envDemo : Env :=
  { listing := fun p =>
      if p = "src" then ListResult.ok demoRootEntries
      else if p = "src/sub" then ListResult.ok
        [ { name := "b.bin", etype := "file", path := "src/sub/b.bin" } ]
      else ListResult.fail
    fetch := fun p =>
      if p = "src/a.txt" then fenvPrimaryText
      else if p = "src/sub/b.bin" then fenvRawBinary
      else { apiResult := HttpResult.exn, rawResult := HttpResult.exn } }

/-- Shape of every `download_file` result: either success with a file
written at `outDir/fileName`, or failure with nothing written; in both cases
the issued requests are the primary one alone or the primary one followed by
the fallback one. -/
theorem download_file_cases (fenv : FetchEnv) (outDir fileName : String) :
    (∃ fd att, download_file fenv outDir fileName
          = ⟨true, some (pjoin outDir fileName, fd), att⟩
        ∧ (att = [Chan.primary] ∨ att = [Chan.primary, Chan.fallback]))
    ∨ (∃ att, download_file fenv outDir fileName = ⟨false, none, att⟩
        ∧ (att = [Chan.primary] ∨ att = [Chan.primary, Chan.fallback])) := by
  obtain ⟨api, raw⟩ := fenv
  cases api with
  | exn => exact Or.inr ⟨[Chan.primary], rfl, Or.inl rfl⟩
  | ok apiResp =>
    cases hpw : primaryWrite apiResp with
    | some fd =>
      refine Or.inl ⟨fd, [Chan.primary], ?_, Or.inl rfl⟩
      simp [download_file, download_attempt, hpw]
    | none =>
      cases raw with
      | exn =>
        refine Or.inr ⟨[Chan.primary, Chan.fallback], ?_, Or.inr rfl⟩
        simp [download_file, download_attempt, hpw]
      | ok rawResp =>
        by_cases hs : rawResp.status = 200
        · refine Or.inl ⟨fallbackData rawResp, [Chan.primary, Chan.fallback], ?_, Or.inr rfl⟩
          simp [download_file, download_attempt, hpw, hs]
        · refine Or.inr ⟨[Chan.primary, Chan.fallback], ?_, Or.inr rfl⟩
          simp [download_file, download_attempt, hpw, hs]

/-- Concatenation law for `paceSafeFrom`. -/
theorem paceSafeFrom_append (b : Bool) (t1 t2 : List Event) :
    paceSafeFrom b (t1 ++ t2)
      = (paceSafeFrom b t1 && paceSafeFrom (endsPersist b t1) t2) := by
  induction t1 generalizing b with
  | nil => simp [paceSafeFrom, endsPersist]
  | cons e rest ih =>
    cases e <;> simp [paceSafeFrom, endsPersist, ih, Bool.and_assoc]

/-- Concatenation law for `endsPersist`. -/
theorem endsPersist_append (b : Bool) (t1 t2 : List Event) :
    endsPersist b (t1 ++ t2) = endsPersist (endsPersist b t1) t2 := by
  induction t1 generalizing b with
  | nil => simp [endsPersist]
  | cons e rest ih => cases e <;> simp [endsPersist, ih]

/-- The empty trace satisfies the invariant with count zero. -/
theorem traceOk_nil : TraceOk 0 [] := by
  refine ⟨rfl, rfl, rfl, rfl⟩

/-- The invariant is additive under trace concatenation. -/
theorem traceOk_append (n m : Nat) (t1 t2 : List Event)
    (h1 : TraceOk n t1) (h2 : TraceOk m t2) : TraceOk (n + m) (t1 ++ t2) := by
  obtain ⟨c1, p1, s1, e1⟩ := h1
  obtain ⟨c2, p2, s2, e2⟩ := h2
  refine ⟨?_, ?_, ?_, ?_⟩
  · simp [countPersist, List.filter_append] at *
    omega
  · simp [countPace, List.filter_append] at *
    omega
  · rw [paceSafeFrom_append, s1, e1, s2]
    rfl
  · rw [endsPersist_append, e1, e2]

/-- Prepending an event that is neither a write nor a sleep preserves the
invariant. -/
theorem traceOk_cons (ev : Event) (n : Nat) (tr : List Event)
    (hp : isPersist ev = false) (hc : isPace ev = false)
    (h : TraceOk n tr) : TraceOk n (ev :: tr) := by
  obtain ⟨c1, p1, s1, e1⟩ := h
  cases ev <;>
    simp_all [TraceOk, countPersist, countPace, paceSafeFrom, endsPersist, isPersist, isPace]

/-- The events of one `download_file` call, together with its pacing sleep
when it succeeded, satisfy the invariant with count one on success and zero
on failure. -/
theorem traceOk_download (fp outDir fileName : String) (fenv : FetchEnv) :
    TraceOk (if (download_file fenv outDir fileName).success then 1 else 0)
      (downloadEvents fp (download_file fenv outDir fileName)
        ++ if (download_file fenv outDir fileName).success then [Event.pace] else []) := by
  rcases download_file_cases fenv outDir fileName with ⟨fd, att, heq, hatt⟩ | ⟨att, heq, hatt⟩ <;>
    rw [heq] <;> rcases hatt with h | h <;> subst h <;>
      simp [TraceOk, downloadEvents, countPersist, countPace, paceSafeFrom, endsPersist,
        isPersist, isPace]

/-- One loop iteration preserves the invariant, provided every recursive
walk it may perform does. -/
theorem traceOk_process_entry (fetchOf : String → FetchEnv) (outRoot path : String)
    (recur : String → Nat × List Event) (e : Entry)
    (hrec : ∀ p, TraceOk (recur p).1 (recur p).2) :
    TraceOk (process_entry fetchOf outRoot path recur e).1
      (process_entry fetchOf outRoot path recur e).2 := by
  unfold process_entry
  by_cases hh : startswith_dot e.name
  · simpa [hh] using traceOk_nil
  · by_cases hf : e.etype = "file"
    · simp only [hh, hf, if_false, if_true, Bool.false_eq_true]
      exact traceOk_cons _ _ _ rfl rfl
        (traceOk_download e.path (pjoin outRoot path) e.name (fetchOf e.path))
    · by_cases hd : e.etype = "dir"
      · simpa [hh, hf, hd] using hrec e.path
      · simpa [hh, hf, hd] using traceOk_nil

/-- The loop over a listing preserves the invariant. -/
theorem traceOk_process_entries (step : Entry → Nat × List Event)
    (hstep : ∀ e, TraceOk (step e).1 (step e).2) (es : List Entry) :
    TraceOk (process_entries step es).1 (process_entries step es).2 := by
  induction es with
  | nil => exact traceOk_nil
  | cons e rest ih =>
    simpa [process_entries] using traceOk_append _ _ _ _ (hstep e) ih

/-- Every walk satisfies the invariant. -/
theorem traceOk_process_directory (env : Env) (outRoot : String) (fuel : Nat) (path : String) :
    TraceOk (process_directory env outRoot fuel path).1
      (process_directory env outRoot fuel path).2 := by
  induction fuel generalizing path with
  | zero => exact traceOk_nil
  | succ fuel ih =>
    unfold process_directory
    cases h : env.listing path with
    | fail =>
      simp only [h]
      exact traceOk_cons _ _ _ rfl rfl (traceOk_cons _ _ _ rfl rfl traceOk_nil)
    | ok entries =>
      simp only [h]
      exact traceOk_cons _ _ _ rfl rfl
        (traceOk_process_entries _
          (fun e => traceOk_process_entry env.fetch outRoot path _ e (fun p => ih p)) entries)

/-- The count returned by the loop is the sum of the per-entry counts. -/
theorem process_entries_fst_sum (step : Entry → Nat × List Event) (es : List Entry) :
    (process_entries step es).1 = (es.map (fun e => (step e).1)).sum := by
  induction es with
  | nil => rfl
  | cons e rest ih => simp [process_entries, ih]

/-- Entries on which the loop body does nothing can be dropped from the
listing without changing the loop's result. -/
theorem process_entries_filter (step : Entry → Nat × List Event) (q : Entry → Bool)
    (hstep : ∀ e, q e = false → step e = (0, [])) (es : List Entry) :
    process_entries step es = process_entries step (es.filter q) := by
  induction es with
  | nil => rfl
  | cons e rest ih =>
    by_cases hq : q e
    · simp [process_entries, List.filter, hq, ih]
    · have h0 := hstep e (by simpa using hq)
      simp [process_entries, List.filter, hq, h0, ih]

/-- An entry on which the loop body does nothing can be removed from the
middle of a listing without changing the loop's result. -/
theorem process_entries_skip_middle (step : Entry → Nat × List Event) (e : Entry)
    (he : step e = (0, [])) (es1 es2 : List Entry) :
    process_entries step (es1 ++ e :: es2) = process_entries step (es1 ++ es2) := by
  induction es1 with
  | nil => simp [process_entries, he]
  | cons x rest ih => simp [process_entries, ih]

/-- The file stored at a path after applying a trace is the last write to
that path, or the original content when the trace never writes it. -/
theorem applyEvents_files (fs : FS) (tr : List Event) (q : String) :
    (applyEvents fs tr).files q =
      match lastWrite q tr with
      | some d => some d
      | none => fs.files q := by
  induction tr generalizing fs with
  | nil => rfl
  | cons e rest ih =>
    rw [show applyEvents fs (e :: rest) = applyEvents (applyEvent fs e) rest from rfl, ih]
    cases hlw : lastWrite q rest with
    | some d => simp [lastWrite, hlw]
    | none =>
      cases e with
      | persist p d =>
        by_cases hpq : p = q
        · subst hpq
          simp [lastWrite, hlw, applyEvent]
        · simp [lastWrite, hlw, applyEvent, hpq, Ne.symm hpq]
      | listReq p => simp [lastWrite, hlw, applyEvent]
      | listFail p => simp [lastWrite, hlw, applyEvent]
      | attempt c p => simp [lastWrite, hlw, applyEvent]
      | mkdir d => simp [lastWrite, hlw, applyEvent]
      | pace => simp [lastWrite, hlw, applyEvent]

/-- A directory exists after applying a trace exactly when the trace created
it or it already existed. -/
theorem applyEvents_dirs (fs : FS) (tr : List Event) (q : String) :
    (applyEvents fs tr).dirs q = (mkdirSeen q tr || fs.dirs q) := by
  induction tr generalizing fs with
  | nil => rfl
  | cons e rest ih =>
    rw [show applyEvents fs (e :: rest) = applyEvents (applyEvent fs e) rest from rfl, ih]
    cases e with
    | mkdir d =>
      by_cases hdq : q = d
      · subst hdq
        simp [mkdirSeen, applyEvent]
      · have hdq2 : ¬d = q := fun h => hdq h.symm
        simp [mkdirSeen, applyEvent, hdq, hdq2]
    | listReq p => simp [mkdirSeen, applyEvent]
    | listFail p => simp [mkdirSeen, applyEvent]
    | attempt c p => simp [mkdirSeen, applyEvent]
    | persist p d => simp [mkdirSeen, applyEvent]
    | pace => simp [mkdirSeen, applyEvent]

/-- Applying the same trace a second time changes nothing on disk: every
path ends up holding the last write of the trace either way. -/
theorem applyEvents_twice (fs : FS) (tr : List Event) :
    applyEvents (applyEvents fs tr) tr = applyEvents fs tr := by
  have hFS : ∀ a b : FS, a.files = b.files → a.dirs = b.dirs → a = b := by
    intro a b h1 h2
    cases a
    cases b
    simp_all
  apply hFS
  · funext q
    rw [applyEvents_files, applyEvents_files]
    cases hlw : lastWrite q tr with
    | some d => rfl
    | none => rfl
  · funext q
    rw [applyEvents_dirs, applyEvents_dirs]
    cases mkdirSeen q tr <;> simp

/-- A write event inside the events of one `download_file` call records
exactly the file that call reports as written. -/
theorem downloadEvents_persist_mem (fp : String) (r : DownloadResult)
    (q : String) (d : FileData) (h : Event.persist q d ∈ downloadEvents fp r) :
    r.written = some (q, d) := by
  unfold downloadEvents at h
  rcases List.mem_append.mp h with h1 | h2
  · rcases List.mem_map.mp h1 with ⟨c, _, hc⟩
    cases hc
  · cases hw : r.written with
    | none => rw [hw] at h2; cases h2
    | some pd =>
      obtain ⟨p0, d0⟩ := pd
      rw [hw] at h2
      simp only [List.mem_singleton, Event.persist.injEq] at h2
      obtain ⟨hq, hd⟩ := h2
      subst hq
      subst hd
      rfl

/-- Inversion of a successful primary-channel write: it requires a parsed
payload whose base64 content decoded, and persists exactly `primaryData` of
those bytes. -/
theorem primaryWrite_inv (r : Response) (fd : FileData) (h : primaryWrite r = some fd) :
    ∃ cd fc, r.jsonBody = JsonResult.ok cd ∧ cd.b64decoded = some fc
      ∧ fd = primaryData fc := by
  unfold primaryWrite at h
  split at h
  · split at h
    · simp at h
    · rename_i cd hj
      split at h
      · split at h
        · split at h
          · rename_i fc hc
            injection h with h2
            exact ⟨cd, fc, hj, hc, h2.symm⟩
          · simp at h
        · simp at h
      · simp at h
  · simp at h

/-- When the bytes decode as UTF-8, the primary channel persists the decoded
code points in text mode. -/
theorem primaryData_text (fc : Bytes) (cps : List Nat) (h : utf8Decode fc = some cps) :
    primaryData fc = FileData.textData cps := by
  unfold primaryData is_binary_primary
  rw [h]
  simp

/-- When the bytes fail UTF-8 decoding, the primary channel persists the raw
bytes in binary mode. -/
theorem primaryData_bin (fc : Bytes) (h : utf8Decode fc = none) :
    primaryData fc = FileData.binData fc := by
  unfold primaryData is_binary_primary
  rw [h]
  simp

/-- When the raw body decodes as UTF-8, the fallback channel persists the
library's charset rendering `.text` in text mode. -/
theorem fallbackData_text (rr : Response) (cps : List Nat)
    (h : utf8Decode rr.content = some cps) :
    fallbackData rr = FileData.textData rr.textBody := by
  unfold fallbackData is_binary_fallback
  rw [h]
  simp

/-- When the raw body fails UTF-8 decoding, the fallback channel persists
the raw bytes in binary mode. -/
theorem fallbackData_bin (rr : Response) (h : utf8Decode rr.content = none) :
    fallbackData rr = FileData.binData rr.content := by
  unfold fallbackData is_binary_fallback
  rw [h]
  simp

/-- Unfolding of the loop body on a non-hidden file entry. -/
theorem process_entry_file (fetchOf : String → FetchEnv) (outRoot path : String)
    (recur : String → Nat × List Event) (e : Entry)
    (hf : e.etype = "file") (hh : startswith_dot e.name = false) :
    process_entry fetchOf outRoot path recur e
      = (if (download_file (fetchOf e.path) (pjoin outRoot path) e.name).success then 1 else 0,
         Event.mkdir (pjoin outRoot path)
           :: (downloadEvents e.path (download_file (fetchOf e.path) (pjoin outRoot path) e.name)
               ++ if (download_file (fetchOf e.path) (pjoin outRoot path) e.name).success
                  then [Event.pace] else [])) := by
  simp [process_entry, hh, hf]

/-- C6: `classify` is a deterministic pure function of the byte sequence —
it returns `text` exactly when UTF-8 decoding succeeds and `binary` exactly
when decoding fails, and the inline classification at the primary write site
and at the fallback write site is the same function of the bytes, so
identical bytes always yield the identical classification regardless of
which channel retrieved them. -/
theorem classify_utf8_iff (b : Bytes) :
    (classify b = Classification.text ↔ (utf8Decode b).isSome = true)
    ∧ (classify b = Classification.binary ↔ utf8Decode b = none)
    ∧ is_binary_primary b = is_binary_fallback b
    ∧ (is_binary_primary b = false ↔ classify b = Classification.text) := by
  unfold classify is_binary_primary is_binary_fallback
  cases h : utf8Decode b <;> simp

/-- C1: for every directory tree the walk returns a count equal to the
number of file writes that actually completed (each successful download
contributing exactly one), and entries whose name starts with a dot are
skipped by the entry loop at every level — dropping them from any listing
leaves both the count and the entire event trace unchanged, so they are
neither counted, persisted, nor recursed into. -/
theorem process_directory_count_and_hidden_skip (env : Env) (outRoot : String) :
    (∀ fuel path, (process_directory env outRoot fuel path).1
        = countPersist (process_directory env outRoot fuel path).2)
    ∧ (∀ fuel path es,
        process_entries (process_entry env.fetch outRoot path (process_directory env outRoot fuel)) es
          = process_entries (process_entry env.fetch outRoot path (process_directory env outRoot fuel))
              (es.filter (fun e => !startswith_dot e.name))) := by
  constructor
  · intro fuel path
    exact ((traceOk_process_directory env outRoot fuel path).1).symm
  · intro fuel path es
    refine process_entries_filter _ _ (fun e he => ?_) es
    have hh : startswith_dot e.name = true := by simpa using he
    unfold process_entry
    simp [hh]

/-- C8: walking the same coordinate and output root a second time, with the
remote giving the same responses, produces a byte-identical disk state — the
trace of the second run is the same as the first, each write silently
overwrites what the first run put at the same destination, and no duplicate
or merged content is created. -/
theorem walk_idempotent_on_disk (env : Env) (outRoot : String) (fuel : Nat)
    (path : String) (fs : FS) :
    applyEvents (applyEvents fs (process_directory env outRoot fuel path).2)
        (process_directory env outRoot fuel path).2
      = applyEvents fs (process_directory env outRoot fuel path).2
    ∧ (∀ fs2 q d, (applyEvent fs2 (Event.persist q d)).files q = some d) := by
  refine ⟨applyEvents_twice fs _, ?_⟩
  intro fs2 q d
  simp [applyEvent]

/-- C9: the walk sleeps exactly once per successfully downloaded file — the
number of pacing sleeps in the trace equals the returned download count, and
every sleep immediately follows a completed file write, so no sleep follows
a skipped hidden entry, a failed download, or a directory listing; moreover
the delay drawn by `random.uniform(0.1, 0.5)` always lies in `[0.1, 0.5]`. -/
theorem pace_once_per_success (env : Env) (outRoot : String) (fuel : Nat) (path : String)
    (u : ℚ) (h0 : 0 ≤ u) (h1 : u ≤ 1) :
    countPace (process_directory env outRoot fuel path).2
        = (process_directory env outRoot fuel path).1
    ∧ paceSafeFrom false (process_directory env outRoot fuel path).2 = true
    ∧ 1/10 ≤ pace_delay u ∧ pace_delay u ≤ 1/2 := by
  obtain ⟨hc, hp, hs, he⟩ := traceOk_process_directory env outRoot fuel path
  refine ⟨hp, hs, ?_, ?_⟩
  · unfold pace_delay
    nlinarith
  · unfold pace_delay
    nlinarith

/-- Witness for C9 at a concrete environment and a concrete random draw. -/
theorem pace_once_per_success_witness :
    countPace (process_directory envDemo "out" 3 "src").2
        = (process_directory envDemo "out" 3 "src").1
    ∧ paceSafeFrom false (process_directory envDemo "out" 3 "src").2 = true
    ∧ 1/10 ≤ pace_delay 0 ∧ pace_delay 0 ≤ 1/2 :=
  pace_once_per_success envDemo "out" 3 "src" 0 (by norm_num) (by norm_num)

/-- C10: an entry whose type is neither `file` nor `dir` is silently
ignored — the loop body performs no event at all for it (nothing fetched,
nothing written, no recursion) and contributes zero, and removing it from
any listing leaves the loop's count and trace unchanged. -/
theorem unknown_entry_type_ignored (env : Env) (outRoot path : String) (fuel : Nat)
    (e : Entry) (h1 : e.etype ≠ "file") (h2 : e.etype ≠ "dir") :
    process_entry env.fetch outRoot path (process_directory env outRoot fuel) e = (0, [])
    ∧ ∀ es1 es2,
        process_entries (process_entry env.fetch outRoot path (process_directory env outRoot fuel))
            (es1 ++ e :: es2)
          = process_entries (process_entry env.fetch outRoot path (process_directory env outRoot fuel))
              (es1 ++ es2) := by
  have h0 : process_entry env.fetch outRoot path (process_directory env outRoot fuel) e
      = (0, []) := by
    by_cases hh : startswith_dot e.name <;> simp [process_entry, hh, h1, h2]
  exact ⟨h0, fun es1 es2 => process_entries_skip_middle _ e h0 es1 es2⟩

/-- Witness for C10 at a concrete symlink entry of the demonstration
environment. -/
theorem unknown_entry_type_ignored_witness :
    process_entry envDemo.fetch "out" "src" (process_directory envDemo "out" 1) linkEntry = (0, [])
    ∧ process_entries (process_entry envDemo.fetch "out" "src" (process_directory envDemo "out" 1))
        ([aEntry] ++ linkEntry :: [subEntry])
      = process_entries (process_entry envDemo.fetch "out" "src" (process_directory envDemo "out" 1))
        ([aEntry] ++ [subEntry]) := by
  have h := unknown_entry_type_ignored envDemo "out" "src" 1 linkEntry
    (by decide) (by decide)
  exact ⟨h.1, h.2 [aEntry] [subEntry]⟩

/-- C2 counterexample: when the primary request raises a transport
exception, `download_file` returns failure after issuing only the primary
request — the fallback channel is not attempted, even though here the raw
endpoint would have answered 200 (the outer `try` of `main.py` lines 79-151
encloses the fallback, so the exception jumps straight to `return False`). -/
theorem download_file_primary_exn_no_fallback_cex :
    envPrimaryExn.apiResult = HttpResult.exn
    ∧ envPrimaryExn.rawResult = HttpResult.ok rawOkResponse
    ∧ rawOkResponse.status = 200
    ∧ (download_file envPrimaryExn "out" "a.txt").success = false
    ∧ Chan.fallback ∉ (download_file envPrimaryExn "out" "a.txt").attempts := by
  refine ⟨rfl, rfl, rfl, rfl, ?_⟩
  decide

/-- C2 as amended: a transport exception on the primary request is caught
and converted into an overall fetch failure — the `try` body stops with the
exception after the primary attempt alone, the outer handler absorbs it, and
`download_file` returns `False` with nothing written and without attempting
the fallback channel; no exception propagates out of the component. -/
theorem download_file_primary_exn_caught (fenv : FetchEnv) (outDir fileName : String)
    (h : fenv.apiResult = HttpResult.exn) :
    download_attempt fenv outDir fileName = Except.error [Chan.primary]
    ∧ download_file fenv outDir fileName
        = { success := false, written := none, attempts := [Chan.primary] } := by
  obtain ⟨api, raw⟩ := fenv
  simp only at h
  subst h
  exact ⟨rfl, rfl⟩

/-- Witness for the amended C2 at a concrete environment. -/
theorem download_file_primary_exn_caught_witness :
    download_attempt envPrimaryExn "out" "a.txt" = Except.error [Chan.primary]
    ∧ download_file envPrimaryExn "out" "a.txt"
        = { success := false, written := none, attempts := [Chan.primary] } :=
  download_file_primary_exn_caught envPrimaryExn "out" "a.txt" rfl

/-- C4: when the primary channel answers 200 but the parsed payload is not a
file-type dict, or lacks a content field, or declares an encoding other than
base64, no exception is raised — the fallback request is issued, and the
fetch succeeds exactly when the raw endpoint answers 200. -/
theorem primary_malformed_falls_back (fenv : FetchEnv) (outDir fileName : String)
    (r : Response) (cd : ContentData)
    (h1 : fenv.apiResult = HttpResult.ok r) (h2 : r.status = 200)
    (h3 : r.jsonBody = JsonResult.ok cd)
    (h4 : ¬(cd.isDict = true ∧ cd.typeField = some "file")
        ∨ cd.hasContent = false ∨ cd.encodingField ≠ some "base64") :
    Chan.fallback ∈ (download_file fenv outDir fileName).attempts
    ∧ ((download_file fenv outDir fileName).success = true
        ↔ ∃ rr, fenv.rawResult = HttpResult.ok rr ∧ rr.status = 200) := by
  have hpw : primaryWrite r = none := by
    unfold primaryWrite
    rw [h3]
    by_cases ha : (cd.isDict ∧ cd.typeField = some "file")
    · by_cases hb : (cd.hasContent ∧ cd.encodingField = some "base64")
      · exfalso
        rcases h4 with h | h | h
        · exact h ha
        · have hcon := hb.1
          rw [h] at hcon
          simp at hcon
        · exact h hb.2
      · simp [h2, ha, hb]
    · simp [h2, ha]
  obtain ⟨api, raw⟩ := fenv
  simp only at h1
  subst h1
  cases raw with
  | exn =>
    constructor
    · simp [download_file, download_attempt, hpw]
    · simp [download_file, download_attempt, hpw]
  | ok rawResp =>
    by_cases hs : rawResp.status = 200
    · constructor
      · simp [download_file, download_attempt, hpw, hs]
      · simp [download_file, download_attempt, hpw, hs]
    · constructor
      · simp [download_file, download_attempt, hpw, hs]
      · simp [download_file, download_attempt, hpw, hs]

/-- Witness for C4 at a concrete 200 payload that lacks a content field. -/
theorem primary_malformed_falls_back_witness :
    Chan.fallback ∈ (download_file fenvNoContent "out" "a.txt").attempts
    ∧ ((download_file fenvNoContent "out" "a.txt").success = true
        ↔ ∃ rr, fenvNoContent.rawResult = HttpResult.ok rr ∧ rr.status = 200) :=
  primary_malformed_falls_back fenvNoContent "out" "a.txt" respNoContent cdNoContent
    rfl rfl rfl (Or.inr (Or.inl rfl))

/-- C7: a failed listing makes the walk of that subtree return 0 at once,
with exactly one (unretried) listing request in its trace; independently,
the count of any entry loop is the sum of its entries' individual
contributions, and a non-hidden directory entry whose own listing fails
contributes exactly 0 with no other effect — so sibling entries before or
after it are processed and counted as usual. -/
theorem listing_failure_isolated (env : Env) (outRoot : String) (fuel : Nat) (path : String)
    (h : env.listing path = ListResult.fail) :
    process_directory env outRoot (fuel + 1) path
        = (0, [Event.listReq path, Event.listFail path])
    ∧ (∀ path2 es,
        (process_entries (process_entry env.fetch outRoot path2
            (process_directory env outRoot fuel)) es).1
          = (es.map (fun e =>
              (process_entry env.fetch outRoot path2
                (process_directory env outRoot fuel) e).1)).sum)
    ∧ (∀ path2 e, e.etype = "dir" → startswith_dot e.name = false
        → env.listing e.path = ListResult.fail
        → process_entry env.fetch outRoot path2 (process_directory env outRoot (fuel + 1)) e
            = (0, [Event.listReq e.path, Event.listFail e.path])) := by
  refine ⟨?_, ?_, ?_⟩
  · unfold process_directory
    simp [h]
  · intro path2 es
    exact process_entries_fst_sum _ es
  · intro path2 e hd hh hfail
    have hsub : process_directory env outRoot (fuel + 1) e.path
        = (0, [Event.listReq e.path, Event.listFail e.path]) := by
      unfold process_directory
      simp [hfail]
    simp [process_entry, hh, hd, hsub]

/-- Witness for C7 at a concrete failing path of the demonstration
environment. -/
theorem listing_failure_isolated_witness :
    process_directory envDemo "out" (1 + 1) "zzz"
        = (0, [Event.listReq "zzz", Event.listFail "zzz"])
    ∧ (process_entries (process_entry envDemo.fetch "out" "src"
          (process_directory envDemo "out" 1)) demoRootEntries).1
        = (demoRootEntries.map (fun e =>
            (process_entry envDemo.fetch "out" "src"
              (process_directory envDemo "out" 1) e).1)).sum
    ∧ process_entry envDemo.fetch "out" "src" (process_directory envDemo "out" (1 + 1)) badDirEntry
        = (0, [Event.listReq "bad", Event.listFail "bad"]) := by
  have h := listing_failure_isolated envDemo "out" 1 "zzz" (by rfl)
  exact ⟨h.1, h.2.1 "src" demoRootEntries, h.2.2 "src" badDirEntry rfl rfl (by rfl)⟩

/-- C5: for a non-hidden file entry whose remote path sits directly under
the listed directory, the loop first creates (idempotently, before any
write) the output directory `outputRoot` joined with the directory component
of the entry's path, and any file it writes lands at that directory joined
with the entry's name. -/
theorem file_entry_output_paths (env : Env) (outRoot path : String) (fuel : Nat) (e : Entry)
    (hf : e.etype = "file") (hh : startswith_dot e.name = false)
    (hp : dirname e.path = path) :
    (process_entry env.fetch outRoot path (process_directory env outRoot fuel) e).2.head?
        = some (Event.mkdir (pjoin outRoot (dirname e.path)))
    ∧ ∀ q d,
        Event.persist q d
            ∈ (process_entry env.fetch outRoot path (process_directory env outRoot fuel) e).2
          → q = pjoin (pjoin outRoot (dirname e.path)) e.name := by
  subst hp
  rw [process_entry_file env.fetch outRoot (dirname e.path)
    (process_directory env outRoot fuel) e hf hh]
  constructor
  · simp
  · intro q d hmem
    simp only [List.mem_cons, List.mem_append] at hmem
    rcases hmem with h1 | h2 | h3
    · cases h1
    · have hw := downloadEvents_persist_mem e.path _ q d h2
      rcases download_file_cases (env.fetch e.path) (pjoin outRoot (dirname e.path)) e.name with
        ⟨fd, att, heq, _⟩ | ⟨att, heq, _⟩
      · rw [heq] at hw
        simp only [DownloadResult.mk.injEq] at hw
        injection hw with hw2
        injection hw2 with hq hd
        exact hq.symm
      · rw [heq] at hw
        simp at hw
    · by_cases hsucc : (download_file (env.fetch e.path)
          (pjoin outRoot (dirname e.path)) e.name).success <;> simp [hsucc] at h3

/-- Witness for C5 at the concrete file entry `src/a.txt`. -/
theorem file_entry_output_paths_witness :
    (process_entry envDemo.fetch "out" "src" (process_directory envDemo "out" 1) aEntry).2.head?
        = some (Event.mkdir (pjoin "out" (dirname "src/a.txt")))
    ∧ (Event.persist (pjoin (pjoin "out" (dirname "src/a.txt")) "a.txt")
          (FileData.textData [104, 105])
          ∈ (process_entry envDemo.fetch "out" "src" (process_directory envDemo "out" 1) aEntry).2
        → pjoin (pjoin "out" (dirname "src/a.txt")) "a.txt"
            = pjoin (pjoin "out" (dirname "src/a.txt")) "a.txt") := by
  have h := file_entry_output_paths envDemo "out" "src" 1 aEntry rfl rfl (by rfl)
  exact ⟨h.1, h.2 _ _⟩

/-- C3 counterexample: a fallback response whose body `C3 A9` is valid UTF-8
(decoding to the single code point `E9`) but whose server-declared charset
makes the library render `.text` as the two code points `C3 A9`: the file is
classified as text, yet the persisted content is the charset rendering, not
the UTF-8 decoding of the retrieved bytes. -/
theorem download_file_fallback_text_cex :
    utf8Decode [0xC3, 0xA9] = some [0xE9]
    ∧ classify [0xC3, 0xA9] = Classification.text
    ∧ (download_file envFallbackCharset "out" "a.txt").written
        = some (pjoin "out" "a.txt", FileData.textData [0xC3, 0xA9])
    ∧ FileData.textData [0xC3, 0xA9] ≠ FileData.textData [0xE9] := by
  refine ⟨by decide, by decide, by decide, by decide⟩

/-- C3 as amended: every persisted file comes either from the primary
channel — where undecodable bytes are written raw and decodable bytes are
written as their UTF-8 decoding — or from the fallback channel, where
undecodable bytes are written raw but decodable bytes are written as the
HTTP library's charset rendering `.text` of the body, which coincides with
the UTF-8 decoding only when the response's declared charset renders it
so. -/
theorem persisted_content_characterization (fenv : FetchEnv) (outDir fileName : String)
    (q : String) (fd : FileData)
    (h : (download_file fenv outDir fileName).written = some (q, fd)) :
    (∃ r cd fc, fenv.apiResult = HttpResult.ok r ∧ r.jsonBody = JsonResult.ok cd
        ∧ cd.b64decoded = some fc ∧ fd = primaryData fc
        ∧ (∀ cps, utf8Decode fc = some cps → fd = FileData.textData cps)
        ∧ (utf8Decode fc = none → fd = FileData.binData fc))
    ∨ (∃ rr, fenv.rawResult = HttpResult.ok rr ∧ rr.status = 200 ∧ fd = fallbackData rr
        ∧ (utf8Decode rr.content = none → fd = FileData.binData rr.content)
        ∧ (∀ cps, utf8Decode rr.content = some cps → fd = FileData.textData rr.textBody)) := by
  obtain ⟨api, raw⟩ := fenv
  cases api with
  | exn => simp [download_file, download_attempt] at h
  | ok apiResp =>
    cases hpw : primaryWrite apiResp with
    | some fd0 =>
      have hfd : fd = fd0 := by
        simp [download_file, download_attempt, hpw] at h
        exact h.2.symm
      obtain ⟨cd, fc, hj, hc, hfd0⟩ := primaryWrite_inv apiResp fd0 hpw
      refine Or.inl ⟨apiResp, cd, fc, rfl, hj, hc, ?_, ?_, ?_⟩
      · rw [hfd, hfd0]
      · intro cps hcps
        rw [hfd, hfd0]
        exact primaryData_text fc cps hcps
      · intro hnone
        rw [hfd, hfd0]
        exact primaryData_bin fc hnone
    | none =>
      cases raw with
      | exn => simp [download_file, download_attempt, hpw] at h
      | ok rawResp =>
        by_cases hs : rawResp.status = 200
        · have hfd : fd = fallbackData rawResp := by
            simp [download_file, download_attempt, hpw, hs] at h
            exact h.2.symm
          refine Or.inr ⟨rawResp, rfl, hs, hfd, ?_, ?_⟩
          · intro hnone
            rw [hfd]
            exact fallbackData_bin rawResp hnone
          · intro cps hcps
            rw [hfd]
            exact fallbackData_text rawResp cps hcps
        · simp [download_file, download_attempt, hpw, hs] at h

/-- Witness for the amended C3 at a concrete primary-channel text file. -/
theorem persisted_content_characterization_witness :
    (∃ r cd fc, fenvPrimaryText.apiResult = HttpResult.ok r ∧ r.jsonBody = JsonResult.ok cd
        ∧ cd.b64decoded = some fc ∧ FileData.textData [104, 105] = primaryData fc
        ∧ (∀ cps, utf8Decode fc = some cps
            → FileData.textData [104, 105] = FileData.textData cps)
        ∧ (utf8Decode fc = none → FileData.textData [104, 105] = FileData.binData fc))
    ∨ (∃ rr, fenvPrimaryText.rawResult = HttpResult.ok rr ∧ rr.status = 200
        ∧ FileData.textData [104, 105] = fallbackData rr
        ∧ (utf8Decode rr.content = none
            → FileData.textData [104, 105] = FileData.binData rr.content)
        ∧ (∀ cps, utf8Decode rr.content = some cps
            → FileData.textData [104, 105] = FileData.textData rr.textBody)) :=
  persisted_content_characterization fenvPrimaryText "out" "a.txt" (pjoin "out" "a.txt")
    (FileData.textData [104, 105]) (by decide)

end Downloader
